import Mathlib

/-!
Verification of the sdkscan detection engine (src/sdkscan/core.py).

Shallow-embedding conventions:

* A byte string is modelled by the record of the interpretations the engine
  applies to it (`Bytes`): its best-effort UTF-8 decoding (`text`, `none` when
  decoding raises UnicodeDecodeError), its parse as a split-package manifest
  (`asManifest`, `none` when pydantic validation fails), and its parse as a
  zip container (`asZip`, `none` when `zipfile.ZipFile` raises BadZipFile).
* A zip entry (`Entry`) carries its name, a `readOk` flag (`false` models an
  entry whose `zip_file.read` raises, e.g. a corrupt member), and its bytes.
* The `re.search` patterns of the source are modelled by `rmatch`/`rsearch`
  over the regex tokens those patterns use (literal characters, `.`, `.*`,
  one-or-more digits, end anchor); the model lets `.` match every character,
  which agrees with Python for entry names that contain no newline.
* Python exceptions are modelled with `Except`: `ScanError.badZip` stands for
  zipfile.BadZipFile raised on open, `ScanError.readError` for a raising
  entry read, `ScanError.keyError` for reading an absent entry name,
  `ScanError.manifestParse` for pydantic.ValidationError, and
  `ScanError.reduceEmpty` for the TypeError that `functools.reduce` raises on
  an empty sequence.
* The IntFlag `Sdks` value accumulated by `scan` is modelled as a
  `Finset Sdks`: bitwise or is set union, `Sdks(0)` is the empty set.
-/

namespace sdkscan

/-- Member descriptor of a split-package manifest (class XAPKManifest.APK). -/
structure XAPKManifest.APK where
  file : String
  id : String
  deriving DecidableEq

/-- The split-package manifest model (class XAPKManifest). -/
structure XAPKManifest where
  xapk_version : Int
  package_name : String
  name : String
  version_code : String
  version_name : String
  min_sdk_version : String
  target_sdk_version : String
  permissions : List String
  split_configs : List String
  total_size : Int
  icon : String
  split_apks : List XAPKManifest.APK
  deriving DecidableEq

/-- XAPKManifest.base_apk: first split_apks member whose id is "base". -/
def XAPKManifest.base_apk (m : XAPKManifest) : Option String :=
  (m.split_apks.find? (fun apk => apk.id == "base")).map XAPKManifest.APK.file

/-- The closed SDK identifier enumeration (IntFlag Sdks). -/
inductive Sdks where
  | ANDROID_DALVIK
  | ANDROID_KOTLIN
  | KOTLIN_MULTI_PLATFORM
  | REACT_NATIVE
  | FLUTTER
  | DOTNET
  | XAMARIN
  | MAUI
  | CORDOVA
  | IONIC
  | TITANIUM
  | QT
  | UNITY
  | UNREAL_ENGINE
  deriving DecidableEq, Fintype

/-- Python exceptions the engine can raise, by site. -/
inductive ScanError where
  | badZip
  | keyError
  | readError
  | manifestParse
  | reduceEmpty
  deriving DecidableEq

deriving instance DecidableEq for Except

mutual
/-- A byte string, as the record of the interpretations the engine applies. -/
inductive Bytes where
  | mk : Option String → Option XAPKManifest → Option (List Entry) → Bytes

/-- A zip entry: name, whether reading succeeds, and its bytes. -/
inductive Entry where
  | mk : String → Bool → Bytes → Entry
end

/-- UTF-8 decoding of the bytes (none models UnicodeDecodeError). -/
def Bytes.text : Bytes → Option String
  | .mk t _ _ => t

/-- Parse of the bytes as manifest JSON (none models ValidationError). -/
def Bytes.asManifest : Bytes → Option XAPKManifest
  | .mk _ m _ => m

/-- Parse of the bytes as a zip container (none models BadZipFile). -/
def Bytes.asZip : Bytes → Option (List Entry)
  | .mk _ _ z => z

/-- Entry name within the archive listing. -/
def Entry.name : Entry → String
  | .mk n _ _ => n

/-- Whether zip_file.read succeeds on this entry. -/
def Entry.readOk : Entry → Bool
  | .mk _ r _ => r

/-- The entry's bytes. -/
def Entry.content : Entry → Bytes
  | .mk _ _ c => c

/-- Regex tokens used by the source's patterns. -/
inductive RTok where
  | lit : Char → RTok
  | dot : RTok
  | star : RTok
  | digits : RTok
  | eos : RTok
  deriving DecidableEq

/-- Fuel-indexed regex matcher; every step consumes at least one pattern
token or one character, so fuel of ps.length + l.length + 1 never runs out. -/
def rmatchF : Nat → List RTok → List Char → Bool
  | 0, _, _ => false
  | _ + 1, [], _ => true
  | f + 1, .lit c :: ps, d :: l => c == d && rmatchF f ps l
  | _ + 1, .lit _ :: _, [] => false
  | f + 1, .dot :: ps, _ :: l => rmatchF f ps l
  | _ + 1, .dot :: _, [] => false
  | f + 1, .star :: ps, l =>
    rmatchF f ps l ||
      (match l with
       | [] => false
       | _ :: l2 => rmatchF f (.star :: ps) l2)
  | f + 1, .digits :: ps, d :: l => d.isDigit && (rmatchF f ps l || rmatchF f (.digits :: ps) l)
  | _ + 1, .digits :: _, [] => false
  | f + 1, .eos :: ps, [] => rmatchF f ps []
  | _ + 1, .eos :: _, _ :: _ => false

/-- Anchored regex match of a token list against a character list; trailing
characters are allowed once the pattern is exhausted (re.search semantics
without a final anchor). -/
def rmatch (ps : List RTok) (l : List Char) : Bool :=
  rmatchF (ps.length + l.length + 1) ps l

/-- Unanchored regex search (re.search): match at any starting position. -/
def rsearch (ps : List RTok) (l : List Char) : Bool :=
  rmatch (.star :: ps) l

/-- Literal characters of a string as regex tokens. -/
def lit (s : String) : List RTok :=
  s.data.map RTok.lit

/-- The type of a registered detector predicate. -/
abbrev Detector := List Entry → String → Except ScanError Bool

/-- zip_file.read(name): resolve the name to an entry; zipfile builds
NameToInfo by overwriting as the central directory is parsed, so among
duplicate names the LAST listed entry wins (hence find? over the reversed
listing); reading a missing name raises KeyError and reading a corrupt
entry raises. -/
def zipRead (zip_file : List Entry) (name : String) : Except ScanError Bytes :=
  match zip_file.reverse.find? (fun e => e.name == name) with
  | none => .error .keyError
  | some e => if e.readOk then .ok e.content else .error .readError

/-- Detector for ANDROID_DALVIK: re.search of a dot-dex suffix. -/
def is_android_dalvik (zip_file : List Entry) (name : String) : Except ScanError Bool :=
  .ok (rsearch (lit ".dex" ++ [RTok.eos]) name.data)

/-- Detector for ANDROID_KOTLIN: name starts with kotlin/. -/
def is_android_kotlin (zip_file : List Entry) (name : String) : Except ScanError Bool :=
  .ok (rmatch (lit "kotlin/") name.data)

/-- Detector for KOTLIN_MULTI_PLATFORM: name contains .knm. -/
def is_kmp (zip_file : List Entry) (name : String) : Except ScanError Bool :=
  .ok (rsearch ([RTok.star] ++ lit ".knm") name.data)

/-- Detector for REACT_NATIVE: name contains index.android.bundle. -/
def is_react_native (zip_file : List Entry) (name : String) : Except ScanError Bool :=
  .ok (rsearch ([RTok.star] ++ lit "index.android.bundle") name.data)

/-- Detector for FLUTTER: lib/ then any path then /libflutter.so. -/
def is_flutter (zip_file : List Entry) (name : String) : Except ScanError Bool :=
  .ok (rmatch (lit "lib/" ++ [RTok.star] ++ lit "/libflutter.so") name.data)

/-- Detector for DOTNET: a Mono runtime library path or an assemblies blob. -/
def is_dotnet (zip_file : List Entry) (name : String) : Except ScanError Bool :=
  .ok (rmatch (lit "lib/" ++ [RTok.star] ++ lit "/libmono" ++ [RTok.star] ++ lit ".so")
        name.data
      || rmatch (lit "assemblies/assemblies.blob") name.data)

/-- Detector for XAMARIN. -/
def is_xamarin (zip_file : List Entry) (name : String) : Except ScanError Bool :=
  .ok (rmatch (lit "lib/" ++ [RTok.star] ++ lit "/libxamarin-app.so") name.data)

/-- Detector for MAUI; the dots of Microsoft.Maui are unescaped in the
source pattern, so the one between the two words matches any character. -/
def is_maui (zip_file : List Entry) (name : String) : Except ScanError Bool :=
  .ok (rmatch (lit "lib/" ++ [RTok.star] ++ lit "/" ++ [RTok.star] ++ lit "Microsoft"
        ++ [RTok.dot] ++ lit "Maui" ++ [RTok.star] ++ lit ".so") name.data)

/-- Detector for CORDOVA. -/
def is_cordova (zip_file : List Entry) (name : String) : Except ScanError Bool :=
  .ok (rmatch (lit "assets/www/cordova.js") name.data)

/-- Detector for IONIC: on a manifest.js path, read the entry and look for
the literal token Ionic in its decoded text; only UnicodeDecodeError is
caught (degrade to false), a read failure propagates. -/
def is_ionic (zip_file : List Entry) (name : String) : Except ScanError Bool :=
  if rmatch (lit "assets/www/manifest.js") name.data then
    match zipRead zip_file name with
    | .error e => .error e
    | .ok b =>
      match b.text with
      | none => .ok false
      | some content => .ok (rsearch (lit "Ionic") content.data)
  else
    .ok false

/-- Detector for TITANIUM. -/
def is_titanium (zip_file : List Entry) (name : String) : Except ScanError Bool :=
  .ok (rmatch (lit "lib/" ++ [RTok.star] ++ lit "/libti." ++ [RTok.star] ++ lit ".so")
        name.data
      || name == "assets/Resources/ti.kernel.js.bin"
      || name == "assets/Resources/ti.main.js.bin")

/-- Detector for QT. -/
def is_qt (zip_file : List Entry) (name : String) : Except ScanError Bool :=
  .ok (rmatch (lit "lib/" ++ [RTok.star] ++ lit "/libQt" ++ [RTok.star] ++ lit ".so")
        name.data)

/-- Detector for UNITY. -/
def is_unity (zip_file : List Entry) (name : String) : Except ScanError Bool :=
  .ok (rmatch (lit "lib/" ++ [RTok.star] ++ lit "/libunity.so") name.data
      || name == "assets/bin/Data/Resources/unity_builtin_extra")

/-- Detector for UNREAL_ENGINE: libUE followed by one or more digits. -/
def is_unreal_engine (zip_file : List Entry) (name : String) : Except ScanError Bool :=
  .ok (rmatch (lit "lib/" ++ [RTok.star] ++ lit "/libUE" ++ [RTok.digits] ++ lit ".so")
        name.data)

/-- The detector registry: insertion-ordered (identifier, predicate) pairs,
as produced by iterating the SdkDetectors dict. -/
def SdkDetectors.items : List (Sdks × Detector) :=
  [ (Sdks.ANDROID_DALVIK, is_android_dalvik),
    (Sdks.ANDROID_KOTLIN, is_android_kotlin),
    (Sdks.KOTLIN_MULTI_PLATFORM, is_kmp),
    (Sdks.REACT_NATIVE, is_react_native),
    (Sdks.FLUTTER, is_flutter),
    (Sdks.DOTNET, is_dotnet),
    (Sdks.XAMARIN, is_xamarin),
    (Sdks.MAUI, is_maui),
    (Sdks.CORDOVA, is_cordova),
    (Sdks.IONIC, is_ionic),
    (Sdks.TITANIUM, is_titanium),
    (Sdks.QT, is_qt),
    (Sdks.UNITY, is_unity),
    (Sdks.UNREAL_ENGINE, is_unreal_engine) ]

/-- itertools.product(zip_file.namelist(), SdkDetectors().items()), names in
the outer position. -/
def scanPairs (names : List String) : List (String × Sdks × Detector) :=
  names.flatMap (fun n => SdkDetectors.items.map (fun p => (n, p.1, p.2)))

/-- The accumulation loop of scan over the (name, (sdk, detector)) product:
skip a detector whose identifier is already accumulated, otherwise run it
and insert on true; a detector exception aborts the loop. -/
def detectLoop (zip_file : List Entry) :
    List (String × Sdks × Detector) → Finset Sdks → Except ScanError (Finset Sdks)
  | [], acc => .ok acc
  | (n, sdk, det) :: rest, acc =>
    if sdk ∈ acc then
      detectLoop zip_file rest acc
    else
      match det zip_file n with
      | .error e => .error e
      | .ok true => detectLoop zip_file rest (insert sdk acc)
      | .ok false => detectLoop zip_file rest acc

/-- The variant loop that evaluates every (identifier, predicate) pair
unconditionally (the spec's no-short-circuit alternative). -/
def detectLoopAll (zip_file : List Entry) :
    List (String × Sdks × Detector) → Finset Sdks → Except ScanError (Finset Sdks)
  | [], acc => .ok acc
  | (n, sdk, det) :: rest, acc =>
    match det zip_file n with
    | .error e => .error e
    | .ok true => detectLoopAll zip_file rest (insert sdk acc)
    | .ok false => detectLoopAll zip_file rest acc

/-- Some listed (name, identifier, detector) pair answers true for s. -/
def fires (zip_file : List Entry) (ps : List (String × Sdks × Detector)) (s : Sdks) : Prop :=
  ∃ n d, (n, s, d) ∈ ps ∧ d zip_file n = .ok true

mutual
/-- The scan engine (def scan in core.py): open the zip, delegate through a
split-package manifest when one is present, otherwise run every registered
detector over every entry name. -/
def scan (b : Bytes) : Except ScanError (Finset Sdks) :=
  match b with
  | .mk _ _ none => .error .badZip
  | .mk _ _ (some entries) =>
    if "manifest.json" ∈ entries.map Entry.name then
      match zipRead entries "manifest.json" with
      | .error e => .error e
      | .ok mbytes =>
        match mbytes.asManifest with
        | none => .error .manifestParse
        | some manifest => scanReduce entries manifest.split_apks none
    else
      detectLoop entries (scanPairs (entries.map Entry.name)) ∅
  termination_by (sizeOf b, 0)
  decreasing_by
  all_goals simp_wf
  all_goals
    first
      | (apply Prod.Lex.right; omega)
      | (apply Prod.Lex.left
         try
           have key : sizeOf mb < sizeOf entries := by
             unfold zipRead at h
             split at h
             · exact Except.noConfusion h
             next e hf =>
               split at h
               · have hmb : mb = e.content := by cases h; rfl
                 subst hmb
                 have hm : e ∈ entries :=
                   List.mem_reverse.mp (List.mem_of_find?_eq_some hf)
                 have h1 : sizeOf e < sizeOf entries := List.sizeOf_lt_of_mem hm
                 have h2 : sizeOf e.content < sizeOf e := by
                   cases e with
                   | mk nn rr cc => simp [Entry.content]
                 omega
               · exact Except.noConfusion h
         omega)

/-- functools.reduce of bitwise or over the member scans of split_apks; acc
is none before the first member (reduce of an empty sequence raises). -/
def scanReduce (entries : List Entry) (apks : List XAPKManifest.APK)
    (acc : Option (Finset Sdks)) : Except ScanError (Finset Sdks) :=
  match apks with
  | [] =>
    match acc with
    | none => .error .reduceEmpty
    | some a => .ok a
  | apk :: rest =>
    match h : zipRead entries apk.file with
    | .error e => .error e
    | .ok mb =>
      match scan mb with
      | .error e => .error e
      | .ok s =>
        scanReduce entries rest
          (some (match acc with
                 | none => s
                 | some a => a ∪ s))
  termination_by (sizeOf entries, apks.length + 1)
  decreasing_by
  all_goals simp_wf
  all_goals
    first
      | (apply Prod.Lex.right; omega)
      | (apply Prod.Lex.left
         try
           have key : sizeOf mb < sizeOf entries := by
             unfold zipRead at h
             split at h
             · exact Except.noConfusion h
             next e hf =>
               split at h
               · have hmb : mb = e.content := by cases h; rfl
                 subst hmb
                 have hm : e ∈ entries :=
                   List.mem_reverse.mp (List.mem_of_find?_eq_some hf)
                 have h1 : sizeOf e < sizeOf entries := List.sizeOf_lt_of_mem hm
                 have h2 : sizeOf e.content < sizeOf e := by
                   cases e with
                   | mk nn rr cc => simp [Entry.content]
                 omega
               · exact Except.noConfusion h
         omega)
end

/-- Scan of one split_apks member: read its file from the outer archive and
scan the bytes (one element of the generator inside reduce). -/
def memberScan (entries : List Entry) (apk : XAPKManifest.APK) :
    Except ScanError (Finset Sdks) :=
  match zipRead entries apk.file with
  | .error e => .error e
  | .ok mb => scan mb

/-- The member scans of a split_apks list, in order (error at the first
member whose read or scan raises). -/
def memberScans (entries : List Entry) :
    List XAPKManifest.APK → Except ScanError (List (Finset Sdks))
  | [] => .ok []
  | apk :: rest =>
    match memberScan entries apk with
    | .error e => .error e
    | .ok s =>
      match memberScans entries rest with
      | .error e => .error e
      | .ok ss => .ok (s :: ss)

/-- Opaque bytes: not a zip container, not text, not a manifest. -/
def noBytes : Bytes := Bytes.mk none none none

/-- A plain archive holding one Dalvik bytecode entry. -/
def dexArchive : Bytes :=
  Bytes.mk none none (some [Entry.mk "classes.dex" true noBytes])

/-- A plain archive holding one Kotlin runtime entry. -/
def kotlinArchive : Bytes :=
  Bytes.mk none none (some [Entry.mk "kotlin/Main.kt" true noBytes])

/-- A plain archive with no detector-matching entry. -/
def blankArchive : Bytes :=
  Bytes.mk none none (some [Entry.mk "readme.txt" true noBytes])

/-- A manifest value with the given member list and fixed metadata. -/
def mkManifest (apks : List XAPKManifest.APK) : XAPKManifest :=
  { xapk_version := 1, package_name := "com.example.app", name := "Example",
    version_code := "7", version_name := "1.0", min_sdk_version := "21",
    target_sdk_version := "34", permissions := [], split_configs := [],
    total_size := 0, icon := "icon.png", split_apks := apks }

/-- Manifest bytes that validate to the given manifest. -/
def manifestBytes (apks : List XAPKManifest.APK) : Bytes :=
  Bytes.mk none (some (mkManifest apks)) none

/-- An archive nested k manifests deep above a Dalvik base archive. -/
def nest : Nat → Bytes
  | 0 => dexArchive
  | k + 1 =>
    Bytes.mk none none (some
      [ Entry.mk "manifest.json" true (manifestBytes [⟨"app.apk", "base"⟩]),
        Entry.mk "app.apk" true (nest k) ])

/-- Outer archive whose manifest lists exactly one member, the base. -/
def baseOnlyEntries : List Entry :=
  [ Entry.mk "manifest.json" true (manifestBytes [⟨"app.apk", "base"⟩]),
    Entry.mk "app.apk" true dexArchive ]

/-- Manifest with a base member and one further config member. -/
def c1man : XAPKManifest :=
  mkManifest [⟨"app.apk", "base"⟩, ⟨"extra.apk", "config.arm64"⟩]

/-- Outer archive for c1man: the base matches nothing, the extra member
holds Dalvik bytecode. -/
def c1entries : List Entry :=
  [ Entry.mk "manifest.json" true (Bytes.mk none (some c1man) none),
    Entry.mk "app.apk" true blankArchive,
    Entry.mk "extra.apk" true dexArchive ]

/-- Manifest whose only member is a config split (no base role). -/
def noBaseMan : XAPKManifest := mkManifest [⟨"x.apk", "config.x"⟩]

/-- Outer archive for noBaseMan whose sole member holds Dalvik bytecode. -/
def noBaseEntries : List Entry :=
  [ Entry.mk "manifest.json" true (Bytes.mk none (some noBaseMan) none),
    Entry.mk "x.apk" true dexArchive ]

/-- Manifest with two config members and no base role. -/
def unionMan : XAPKManifest :=
  mkManifest [⟨"a.apk", "config.a"⟩, ⟨"b.apk", "config.b"⟩]

/-- Outer archive for unionMan: one Dalvik member and one Kotlin member. -/
def unionEntries : List Entry :=
  [ Entry.mk "manifest.json" true (Bytes.mk none (some unionMan) none),
    Entry.mk "a.apk" true dexArchive,
    Entry.mk "b.apk" true kotlinArchive ]

/-- Plain listing with one Flutter entry and one Dalvik entry. -/
def w4entries : List Entry :=
  [ Entry.mk "lib/armeabi-v7a/libflutter.so" true noBytes,
    Entry.mk "classes.dex" true noBytes ]

/-- Listing whose Ionic manifest entry raises on read. -/
def corruptIonicEntries : List Entry :=
  [ Entry.mk "assets/www/manifest.js" false noBytes ]

/-- Listing whose manifest entry holds bytes that fail validation. -/
def parseFailEntries : List Entry :=
  [ Entry.mk "manifest.json" true noBytes ]

/-- Plain listing with one Dalvik entry. -/
def w8entries : List Entry :=
  [ Entry.mk "classes.dex" true noBytes ]

/-- Additional entries appended in the monotonicity witness. -/
def w8more : List Entry :=
  [ Entry.mk "kotlin/Main.kt" true noBytes ]

/-- Listing with a readable Ionic manifest.js holding the Ionic token. -/
def c8entries : List Entry :=
  [ Entry.mk "assets/www/manifest.js" true (Bytes.mk (some "Ionic Framework v4") none none) ]

/-- Appended entry reusing the same name with non-Ionic content: zipfile
resolves the duplicate name to this later entry, shadowing the original. -/
def c8shadow : List Entry :=
  [ Entry.mk "assets/www/manifest.js" true (Bytes.mk (some "no marker here") none none) ]

/-- Listing with a readable Ionic manifest.js and a corrupt second entry
whose name also matches the Ionic path pattern. -/
def c9entries : List Entry :=
  [ Entry.mk "assets/www/manifest.js" true (Bytes.mk (some "Ionic Framework v4") none none),
    Entry.mk "assets/www/manifest.js2" false noBytes ]

/-- Listing whose manifest validates to a manifest with no members. -/
def emptySplitEntries : List Entry :=
  [ Entry.mk "manifest.json" true (manifestBytes []) ]

/-- Bytes that do not open as a zip container raise the archive error. -/
theorem scan_notZip (t : Option String) (m : Option XAPKManifest) :
    scan (Bytes.mk t m none) = .error .badZip := by
  rw [scan.eq_def]

/-- On a plain archive (no manifest entry) scan runs the detector loop. -/
theorem scan_plain_eq (t : Option String) (m : Option XAPKManifest) (entries : List Entry)
    (h : "manifest.json" ∉ entries.map Entry.name) :
    scan (Bytes.mk t m (some entries)) =
      detectLoop entries (scanPairs (entries.map Entry.name)) ∅ := by
  rw [scan.eq_def]
  dsimp only
  rw [if_neg h]

/-- On an archive with a readable manifest entry, scan parses the manifest
and reduces over its split_apks members. -/
theorem scan_manifest_eq (t : Option String) (m : Option XAPKManifest) (entries : List Entry)
    (mbytes : Bytes)
    (h1 : "manifest.json" ∈ entries.map Entry.name)
    (h2 : zipRead entries "manifest.json" = .ok mbytes) :
    scan (Bytes.mk t m (some entries)) =
      match mbytes.asManifest with
      | none => .error .manifestParse
      | some manifest => scanReduce entries manifest.split_apks none := by
  rw [scan.eq_def]
  dsimp only
  rw [if_pos h1, h2]

/-- A raising read of the manifest entry propagates out of scan. -/
theorem scan_manifest_read_error (t : Option String) (m : Option XAPKManifest)
    (entries : List Entry) (e : ScanError)
    (h1 : "manifest.json" ∈ entries.map Entry.name)
    (h2 : zipRead entries "manifest.json" = .error e) :
    scan (Bytes.mk t m (some entries)) = .error e := by
  rw [scan.eq_def]
  dsimp only
  rw [if_pos h1, h2]

/-- Reduce over an exhausted member list: empty raises, else the result. -/
theorem scanReduce_nil (entries : List Entry) (acc : Option (Finset Sdks)) :
    scanReduce entries [] acc =
      match acc with
      | none => .error .reduceEmpty
      | some a => .ok a := by
  rw [scanReduce.eq_def]

/-- Reduce step over a readable member: scan it and fold its flags in. -/
theorem scanReduce_cons_eq (entries : List Entry) (apk : XAPKManifest.APK)
    (rest : List XAPKManifest.APK) (acc : Option (Finset Sdks)) (ab : Bytes)
    (h : zipRead entries apk.file = .ok ab) :
    scanReduce entries (apk :: rest) acc =
      match scan ab with
      | .error e => .error e
      | .ok s =>
        scanReduce entries rest
          (some (match acc with
                 | none => s
                 | some a => a ∪ s)) := by
  rw [scanReduce.eq_def]
  dsimp only
  split
  · next e heq => rw [h] at heq; exact Except.noConfusion heq
  · next mb heq =>
    rw [h] at heq
    cases heq
    rfl

/-- Reduce step over a member whose read raises. -/
theorem scanReduce_cons_error (entries : List Entry) (apk : XAPKManifest.APK)
    (rest : List XAPKManifest.APK) (acc : Option (Finset Sdks)) (e : ScanError)
    (h : zipRead entries apk.file = .error e) :
    scanReduce entries (apk :: rest) acc = .error e := by
  rw [scanReduce.eq_def]
  dsimp only
  split
  · next e2 heq => rw [h] at heq; cases heq; rfl
  · next mb heq => rw [h] at heq; exact Except.noConfusion heq

theorem fires_nil {zip_file : List Entry} {s : Sdks} : ¬ fires zip_file [] s := by
  rintro ⟨n, d, hm, hd⟩
  exact absurd hm (List.not_mem_nil _)

theorem fires_cons {zip_file : List Entry} {n : String} {sdk : Sdks} {det : Detector}
    {rest : List (String × Sdks × Detector)} {s : Sdks} :
    fires zip_file ((n, sdk, det) :: rest) s ↔
      (s = sdk ∧ det zip_file n = .ok true) ∨ fires zip_file rest s := by
  constructor
  · rintro ⟨n1, d1, hm, hd⟩
    rcases List.mem_cons.mp hm with heq | hm2
    · injection heq with h1 h2
      injection h2 with h2a h2b
      subst h1; subst h2a; subst h2b
      exact Or.inl ⟨rfl, hd⟩
    · exact Or.inr ⟨n1, d1, hm2, hd⟩
  · rintro (⟨rfl, hd⟩ | ⟨n1, d1, hm, hd⟩)
    · exact ⟨n, det, List.mem_cons_self _ _, hd⟩
    · exact ⟨n1, d1, List.mem_cons_of_mem _ hm, hd⟩

/-- A finished skip-loop holds exactly acc plus the identifiers that fire. -/
theorem detectLoop_ok_char {zip_file : List Entry} {ps : List (String × Sdks × Detector)} :
    ∀ {acc S : Finset Sdks}, detectLoop zip_file ps acc = .ok S →
      ∀ s, s ∈ S ↔ s ∈ acc ∨ fires zip_file ps s := by
  induction ps with
  | nil =>
    intro acc S h s
    simp only [detectLoop] at h
    cases h
    simp [fires_nil]
  | cons p rest ih =>
    obtain ⟨n, sdk, det⟩ := p
    intro acc S h s
    simp only [detectLoop] at h
    rw [fires_cons]
    by_cases hs : sdk ∈ acc
    · rw [if_pos hs] at h
      rw [ih h s]
      constructor
      · rintro (h1 | h2)
        · exact Or.inl h1
        · exact Or.inr (Or.inr h2)
      · rintro (h1 | (⟨rfl, hd⟩ | h2))
        · exact Or.inl h1
        · exact Or.inl hs
        · exact Or.inr h2
    · rw [if_neg hs] at h
      split at h
      · exact absurd h (by simp)
      · next hd =>
        rw [ih h s]
        simp only [Finset.mem_insert]
        constructor
        · rintro ((rfl | h1) | h2)
          · exact Or.inr (Or.inl ⟨rfl, hd⟩)
          · exact Or.inl h1
          · exact Or.inr (Or.inr h2)
        · rintro (h1 | (⟨rfl, _⟩ | h2))
          · exact Or.inl (Or.inr h1)
          · exact Or.inl (Or.inl rfl)
          · exact Or.inr h2
      · next hd =>
        rw [ih h s]
        constructor
        · rintro (h1 | h2)
          · exact Or.inl h1
          · exact Or.inr (Or.inr h2)
        · rintro (h1 | (⟨rfl, hd2⟩ | h2))
          · exact Or.inl h1
          · rw [hd] at hd2
            exact absurd hd2 (by simp)
          · exact Or.inr h2

/-- A finished unconditional loop holds exactly acc plus the firing ids. -/
theorem detectLoopAll_ok_char {zip_file : List Entry} {ps : List (String × Sdks × Detector)} :
    ∀ {acc S : Finset Sdks}, detectLoopAll zip_file ps acc = .ok S →
      ∀ s, s ∈ S ↔ s ∈ acc ∨ fires zip_file ps s := by
  induction ps with
  | nil =>
    intro acc S h s
    simp only [detectLoopAll] at h
    cases h
    simp [fires_nil]
  | cons p rest ih =>
    obtain ⟨n, sdk, det⟩ := p
    intro acc S h s
    simp only [detectLoopAll] at h
    rw [fires_cons]
    split at h
    · exact absurd h (by simp)
    · next hd =>
      rw [ih h s]
      simp only [Finset.mem_insert]
      constructor
      · rintro ((rfl | h1) | h2)
        · exact Or.inr (Or.inl ⟨rfl, hd⟩)
        · exact Or.inl h1
        · exact Or.inr (Or.inr h2)
      · rintro (h1 | (⟨rfl, _⟩ | h2))
        · exact Or.inl (Or.inr h1)
        · exact Or.inl (Or.inl rfl)
        · exact Or.inr h2
    · next hd =>
      rw [ih h s]
      constructor
      · rintro (h1 | h2)
        · exact Or.inl h1
        · exact Or.inr (Or.inr h2)
      · rintro (h1 | (⟨rfl, hd2⟩ | h2))
        · exact Or.inl h1
        · rw [hd] at hd2
          exact absurd hd2 (by simp)
        · exact Or.inr h2

/-- When the unconditional loop finishes, every listed call returned. -/
theorem detectLoopAll_ok_calls {zip_file : List Entry} {ps : List (String × Sdks × Detector)} :
    ∀ {acc S : Finset Sdks}, detectLoopAll zip_file ps acc = .ok S →
      ∀ n sdk det, (n, sdk, det) ∈ ps → ∃ b, det zip_file n = .ok b := by
  induction ps with
  | nil =>
    intro acc S _ n sdk det hm
    exact absurd hm (List.not_mem_nil _)
  | cons p rest ih =>
    obtain ⟨n0, sdk0, det0⟩ := p
    intro acc S h n sdk det hm
    simp only [detectLoopAll] at h
    rcases List.mem_cons.mp hm with heq | hm2
    · injection heq with h1 h2
      injection h2 with h2a h2b
      subst h1; subst h2a; subst h2b
      split at h
      · exact absurd h (by simp)
      · next hd => exact ⟨true, hd⟩
      · next hd => exact ⟨false, hd⟩
    · split at h
      · exact absurd h (by simp)
      · next hd => exact ih h n sdk det hm2
      · next hd => exact ih h n sdk det hm2

/-- If every listed call returns, the skip-loop finishes without error. -/
theorem detectLoop_ok_of_calls {zip_file : List Entry} {ps : List (String × Sdks × Detector)}
    (hc : ∀ n sdk det, (n, sdk, det) ∈ ps → ∃ b, det zip_file n = .ok b) :
    ∀ acc, ∃ S, detectLoop zip_file ps acc = .ok S := by
  induction ps with
  | nil => intro acc; exact ⟨acc, rfl⟩
  | cons p rest ih =>
    obtain ⟨n, sdk, det⟩ := p
    have hc2 : ∀ n2 sdk2 det2, (n2, sdk2, det2) ∈ rest → ∃ b, det2 zip_file n2 = .ok b :=
      fun n2 sdk2 det2 hm => hc n2 sdk2 det2 (List.mem_cons_of_mem _ hm)
    intro acc
    simp only [detectLoop]
    by_cases hs : sdk ∈ acc
    · rw [if_pos hs]
      exact ih hc2 acc
    · rw [if_neg hs]
      obtain ⟨b, hb⟩ := hc n sdk det (List.mem_cons_self _ _)
      rw [hb]
      cases b with
      | true => exact ih hc2 (insert sdk acc)
      | false => exact ih hc2 acc

/-- Membership in the name-by-detector product list. -/
theorem mem_scanPairs {n : String} {s : Sdks} {d : Detector} {names : List String} :
    (n, s, d) ∈ scanPairs names ↔ n ∈ names ∧ (s, d) ∈ SdkDetectors.items := by
  simp only [scanPairs, List.mem_flatMap, List.mem_map]
  constructor
  · rintro ⟨n1, hn1, p, hp, heq⟩
    injection heq with h1 h2
    subst h1
    have hpe : p = (s, d) := by
      rw [← h2]
    rw [hpe] at hp
    exact ⟨hn1, hp⟩
  · rintro ⟨hn, hp⟩
    exact ⟨n, hn, (s, d), hp, rfl⟩

/-- When a plain-archive scan finishes, its flag set is exactly the union of
the identifiers whose registered detector answered true on some entry name. -/
theorem scan_plain_char {t : Option String} {m : Option XAPKManifest} {entries : List Entry}
    {S : Finset Sdks}
    (hnm : "manifest.json" ∉ entries.map Entry.name)
    (h : scan (Bytes.mk t m (some entries)) = .ok S) (s : Sdks) :
    s ∈ S ↔ ∃ n ∈ entries.map Entry.name, ∃ d, (s, d) ∈ SdkDetectors.items ∧
      d entries n = .ok true := by
  rw [scan_plain_eq _ _ _ hnm] at h
  rw [detectLoop_ok_char h s]
  simp only [Finset.not_mem_empty, false_or]
  constructor
  · rintro ⟨n, d, hm, hd⟩
    rw [mem_scanPairs] at hm
    exact ⟨n, hm.1, d, hm.2, hd⟩
  · rintro ⟨n, hn, d, hi, hd⟩
    exact ⟨n, d, mem_scanPairs.mpr ⟨hn, hi⟩, hd⟩

/-- find? skips a prefix on which the predicate is everywhere false. -/
theorem find?_append_of_none {α : Type} {p : α → Bool} {l1 l2 : List α}
    (h : ∀ x ∈ l1, p x = false) : (l1 ++ l2).find? p = l2.find? p := by
  induction l1 with
  | nil => rfl
  | cons x xs ih =>
    rw [List.cons_append,
      List.find?_cons_of_neg _ (by simp [h x (List.mem_cons_self _ _)])]
    exact ih (fun y hy => h y (List.mem_cons_of_mem _ hy))

/-- Appending entries whose names avoid n leaves the resolution of n
unchanged (an appended duplicate name would instead shadow the original,
since zipfile resolves duplicate names to the last listed entry). -/
theorem zipRead_append_fresh {entries more : List Entry} {n : String}
    (hfresh : n ∉ more.map Entry.name) :
    zipRead (entries ++ more) n = zipRead entries n := by
  have hnone : ∀ e ∈ more.reverse, (e.name == n) = false := by
    intro e he
    have he2 : e ∈ more := List.mem_reverse.mp he
    have hne : e.name ≠ n :=
      fun hh => hfresh (hh ▸ List.mem_map_of_mem Entry.name he2)
    simp only [beq_eq_false_iff_ne, ne_eq]
    exact hne
  unfold zipRead
  rw [List.reverse_append, find?_append_of_none hnone]

/-- A true Ionic answer survives appending entries with fresh names. -/
theorem is_ionic_append_fresh {entries more : List Entry} {n : String}
    (hfresh : n ∉ more.map Entry.name)
    (h : is_ionic entries n = .ok true) : is_ionic (entries ++ more) n = .ok true := by
  unfold is_ionic at h ⊢
  rw [zipRead_append_fresh hfresh]
  exact h

/-- Every registered detector keeps a true answer when entries with fresh
names are appended (the name-only detectors ignore the archive; Ionic
re-reads the name, which still resolves to the same entry). -/
theorem detector_ok_true_append_fresh {s : Sdks} {d : Detector}
    (hi : (s, d) ∈ SdkDetectors.items) {entries more : List Entry} {n : String}
    (hfresh : n ∉ more.map Entry.name)
    (hd : d entries n = .ok true) : d (entries ++ more) n = .ok true := by
  simp only [SdkDetectors.items, List.mem_cons, List.not_mem_nil, or_false] at hi
  rcases hi with h|h|h|h|h|h|h|h|h|h|h|h|h|h
  all_goals
    injection h with h1 h2
  all_goals
    subst h2
  all_goals
    first
      | exact hd
      | exact is_ionic_append_fresh hfresh hd

/-- Folding scanReduce over members whose scans all return accumulates the
left fold of union. -/
theorem scanReduce_of_memberScans {entries : List Entry} :
    ∀ {apks : List XAPKManifest.APK} {ss : List (Finset Sdks)} {acc : Finset Sdks},
      memberScans entries apks = .ok ss →
      scanReduce entries apks (some acc) = .ok (ss.foldl (· ∪ ·) acc) := by
  intro apks
  induction apks with
  | nil =>
    intro ss acc h
    simp only [memberScans] at h
    cases h
    rw [scanReduce_nil]
    rfl
  | cons apk rest ih =>
    intro ss acc h
    simp only [memberScans] at h
    split at h
    · exact absurd h (by simp)
    · next s hm =>
      split at h
      · exact absurd h (by simp)
      · next ss2 hms =>
        cases h
        unfold memberScan at hm
        split at hm
        · exact absurd hm (by simp)
        · next mb hz =>
          rw [scanReduce_cons_eq _ _ _ _ mb hz, hm]
          dsimp only
          rw [ih hms]
          rfl

/-- Every level of the nested tower scans to the Dalvik singleton. -/
theorem nest_scan_aux : ∀ k : Nat, scan (nest k) = .ok {Sdks.ANDROID_DALVIK} := by
  intro k
  induction k with
  | zero =>
    show scan dexArchive = _
    rw [scan.eq_def]
    decide
  | succ k ih =>
    have hz : zipRead
        [ Entry.mk "manifest.json" true (manifestBytes [⟨"app.apk", "base"⟩]),
          Entry.mk "app.apk" true (nest k) ] "manifest.json" =
        .ok (manifestBytes [⟨"app.apk", "base"⟩]) := rfl
    have hz2 : zipRead
        [ Entry.mk "manifest.json" true (manifestBytes [⟨"app.apk", "base"⟩]),
          Entry.mk "app.apk" true (nest k) ] "app.apk" = .ok (nest k) := rfl
    show scan (Bytes.mk none none (some
      [ Entry.mk "manifest.json" true (manifestBytes [⟨"app.apk", "base"⟩]),
        Entry.mk "app.apk" true (nest k) ])) = _
    rw [scan_manifest_eq _ _ _ _ (by simp [Entry.name]) hz]
    rw [show (manifestBytes [⟨"app.apk", "base"⟩]).asManifest =
      some (mkManifest [⟨"app.apk", "base"⟩]) from rfl]
    dsimp only
    rw [show (mkManifest [⟨"app.apk", "base"⟩]).split_apks =
      [(⟨"app.apk", "base"⟩ : XAPKManifest.APK)] from rfl]
    rw [scanReduce_cons_eq _ ⟨"app.apk", "base"⟩ [] none (nest k) hz2, ih]
    dsimp only
    rw [scanReduce_nil]

/-- C1 (corrected): when the parsed manifest's split_apks list consists of
exactly the base member with file "app.apk", scanning the outer archive
returns the same result as scanning that member's bytes; the counterexample
shows that further members are scanned too, so delegation to the base alone
fails in general. -/
theorem scan_base_only_member_delegates (t : Option String) (m : Option XAPKManifest)
    (entries : List Entry) (mbytes : Bytes) (man : XAPKManifest) (apk : XAPKManifest.APK)
    (ab : Bytes)
    (h1 : "manifest.json" ∈ entries.map Entry.name)
    (h2 : zipRead entries "manifest.json" = .ok mbytes)
    (h3 : mbytes.asManifest = some man)
    (h4 : man.split_apks = [apk])
    (h5 : apk.id = "base")
    (h6 : apk.file = "app.apk")
    (h7 : zipRead entries "app.apk" = .ok ab) :
    scan (Bytes.mk t m (some entries)) = scan ab := by
  rw [scan_manifest_eq _ _ _ _ h1 h2, h3]
  dsimp only
  rw [h4]
  rw [scanReduce_cons_eq _ _ _ _ ab (by rw [h6]; exact h7)]
  cases hs : scan ab with
  | error e => rfl
  | ok s =>
    dsimp only
    rw [scanReduce_nil]

/-- C1 counterexample: the c1man manifest has base member "app.apk", the base
member scans to the empty set, yet the outer archive scans to the Dalvik
singleton brought in by the extra member, so scan of the outer archive is
not the scan of the base member's bytes. -/
theorem scan_base_delegation_counterexample :
    c1man.base_apk = some "app.apk" ∧
    scan blankArchive = .ok (∅ : Finset Sdks) ∧
    scan (Bytes.mk none none (some c1entries)) = .ok {Sdks.ANDROID_DALVIK} ∧
    scan (Bytes.mk none none (some c1entries)) ≠ scan blankArchive := by
  have hblank : scan blankArchive = .ok (∅ : Finset Sdks) := by
    rw [scan.eq_def]; decide
  have hdex : scan dexArchive = .ok {Sdks.ANDROID_DALVIK} := by
    rw [scan.eq_def]; decide
  have houter : scan (Bytes.mk none none (some c1entries)) = .ok {Sdks.ANDROID_DALVIK} := by
    rw [scan_manifest_eq none none c1entries (Bytes.mk none (some c1man) none)
      (by decide) rfl]
    dsimp only [Bytes.asManifest, c1man, mkManifest]
    rw [scanReduce_cons_eq c1entries ⟨"app.apk", "base"⟩ [⟨"extra.apk", "config.arm64"⟩]
      none blankArchive rfl, hblank]
    dsimp only
    rw [scanReduce_cons_eq c1entries ⟨"extra.apk", "config.arm64"⟩ []
      (some ∅) dexArchive rfl, hdex]
    dsimp only
    rw [scanReduce_nil]
    decide
  refine ⟨by decide, hblank, houter, ?_⟩
  rw [houter, hblank]
  decide

theorem scan_base_only_member_delegates_witness :
    ("manifest.json" ∈ baseOnlyEntries.map Entry.name) ∧
    zipRead baseOnlyEntries "manifest.json" = .ok (manifestBytes [⟨"app.apk", "base"⟩]) ∧
    (manifestBytes [⟨"app.apk", "base"⟩]).asManifest = some (mkManifest [⟨"app.apk", "base"⟩]) ∧
    (mkManifest [⟨"app.apk", "base"⟩]).split_apks = [⟨"app.apk", "base"⟩] ∧
    zipRead baseOnlyEntries "app.apk" = .ok dexArchive ∧
    scan (Bytes.mk none none (some baseOnlyEntries)) = scan dexArchive :=
  ⟨by decide, rfl, rfl, rfl, rfl,
   scan_base_only_member_delegates none none baseOnlyEntries
     (manifestBytes [⟨"app.apk", "base"⟩]) (mkManifest [⟨"app.apk", "base"⟩])
     ⟨"app.apk", "base"⟩ dexArchive (by decide) rfl rfl rfl rfl rfl rfl⟩

/-- C2 (corrected): a successfully parsed manifest with no base member is
not answered with the empty flag set; scan ignores the base role entirely
and returns the left fold of union over the scans of every split_apks
member (raising when the member list is empty). -/
theorem scan_no_base_unions_members (t : Option String) (m : Option XAPKManifest)
    (entries : List Entry) (mbytes : Bytes) (man : XAPKManifest) (apk : XAPKManifest.APK)
    (rest : List XAPKManifest.APK) (s : Finset Sdks) (ss : List (Finset Sdks))
    (h1 : "manifest.json" ∈ entries.map Entry.name)
    (h2 : zipRead entries "manifest.json" = .ok mbytes)
    (h3 : mbytes.asManifest = some man)
    (hb : man.base_apk = none)
    (h4 : man.split_apks = apk :: rest)
    (h5 : memberScans entries (apk :: rest) = .ok (s :: ss)) :
    scan (Bytes.mk t m (some entries)) = .ok (ss.foldl (· ∪ ·) s) := by
  rw [scan_manifest_eq _ _ _ _ h1 h2, h3]
  dsimp only
  rw [h4]
  simp only [memberScans] at h5
  split at h5
  · exact absurd h5 (by simp)
  · next s0 hm =>
    split at h5
    · exact absurd h5 (by simp)
    · next ss0 hms =>
      injection h5 with h5a
      injection h5a with h5b h5c
      subst h5b; subst h5c
      unfold memberScan at hm
      split at hm
      · exact absurd hm (by simp)
      · next mb hz =>
        rw [scanReduce_cons_eq _ _ _ _ mb hz, hm]
        dsimp only
        rw [scanReduce_of_memberScans hms]

/-- C2 counterexample: the noBaseMan manifest parses and has no member with
id "base", yet scan of the archive returns the Dalvik singleton (scanned
out of the sole config member), not the empty flag set. -/
theorem scan_no_base_not_empty_counterexample :
    noBaseMan.base_apk = none ∧
    (Bytes.mk none (some noBaseMan) none).asManifest = some noBaseMan ∧
    scan (Bytes.mk none none (some noBaseEntries)) = .ok {Sdks.ANDROID_DALVIK} ∧
    ({Sdks.ANDROID_DALVIK} : Finset Sdks) ≠ (∅ : Finset Sdks) := by
  have hdex : scan dexArchive = .ok {Sdks.ANDROID_DALVIK} := by
    rw [scan.eq_def]; decide
  have houter : scan (Bytes.mk none none (some noBaseEntries)) = .ok {Sdks.ANDROID_DALVIK} := by
    rw [scan_manifest_eq none none noBaseEntries (Bytes.mk none (some noBaseMan) none)
      (by decide) rfl]
    dsimp only [Bytes.asManifest, noBaseMan, mkManifest]
    rw [scanReduce_cons_eq noBaseEntries ⟨"x.apk", "config.x"⟩ [] none dexArchive rfl, hdex]
    dsimp only
    rw [scanReduce_nil]
  exact ⟨by decide, rfl, houter, by decide⟩

theorem scan_no_base_unions_members_witness :
    unionMan.base_apk = none ∧
    memberScans unionEntries [⟨"a.apk", "config.a"⟩, ⟨"b.apk", "config.b"⟩] =
      .ok [{Sdks.ANDROID_DALVIK}, {Sdks.ANDROID_KOTLIN}] ∧
    scan (Bytes.mk none none (some unionEntries)) =
      .ok ([({Sdks.ANDROID_KOTLIN} : Finset Sdks)].foldl (· ∪ ·) {Sdks.ANDROID_DALVIK}) := by
  have hdex : scan dexArchive = .ok {Sdks.ANDROID_DALVIK} := by
    rw [scan.eq_def]; decide
  have hkot : scan kotlinArchive = .ok {Sdks.ANDROID_KOTLIN} := by
    rw [scan.eq_def]; decide
  have hma : memberScan unionEntries ⟨"a.apk", "config.a"⟩ = .ok {Sdks.ANDROID_DALVIK} := by
    unfold memberScan
    rw [show zipRead unionEntries (XAPKManifest.APK.mk "a.apk" "config.a").file =
      .ok dexArchive from rfl]
    exact hdex
  have hmb : memberScan unionEntries ⟨"b.apk", "config.b"⟩ = .ok {Sdks.ANDROID_KOTLIN} := by
    unfold memberScan
    rw [show zipRead unionEntries (XAPKManifest.APK.mk "b.apk" "config.b").file =
      .ok kotlinArchive from rfl]
    exact hkot
  have hms : memberScans unionEntries [⟨"a.apk", "config.a"⟩, ⟨"b.apk", "config.b"⟩] =
      .ok [{Sdks.ANDROID_DALVIK}, {Sdks.ANDROID_KOTLIN}] := by
    simp only [memberScans]
    rw [hma, hmb]
  refine ⟨by decide, hms, ?_⟩
  exact scan_no_base_unions_members none none unionEntries
    (Bytes.mk none (some unionMan) none) unionMan ⟨"a.apk", "config.a"⟩
    [⟨"b.apk", "config.b"⟩] {Sdks.ANDROID_DALVIK} [{Sdks.ANDROID_KOTLIN}]
    (by decide) rfl rfl (by decide) rfl hms

/-- C3 (corrected): scan recurses into nested split-package manifests with
no depth cap at all: a tower of any height k scans successfully to the base
archive's flags, and no recursion-limit failure exists in the engine; the
recursion terminates on every finitely nested input. -/
theorem scan_unbounded_manifest_recursion :
    ∀ k : Nat, scan (nest k) = .ok {Sdks.ANDROID_DALVIK} :=
  nest_scan_aux

/-- C3 counterexample: a manifest tower of depth five, well past the claimed
small cap such as two, is scanned successfully rather than rejected. -/
theorem scan_depth_five_no_limit_counterexample :
    scan (nest 5) = .ok {Sdks.ANDROID_DALVIK} :=
  nest_scan_aux 5

theorem scan_unbounded_manifest_recursion_witness :
    scan (nest 7) = .ok {Sdks.ANDROID_DALVIK} :=
  scan_unbounded_manifest_recursion 7

/-- C4 (confirmed): when a plain archive's scan completes, its flag set
holds exactly the identifiers whose registered detector answered true on at
least one entry name; with no firing detector the result is empty. -/
theorem scan_plain_union (t : Option String) (m : Option XAPKManifest)
    (entries : List Entry) (S : Finset Sdks)
    (hnm : "manifest.json" ∉ entries.map Entry.name)
    (h : scan (Bytes.mk t m (some entries)) = .ok S) :
    ∀ s : Sdks, s ∈ S ↔ ∃ n ∈ entries.map Entry.name, ∃ d,
      (s, d) ∈ SdkDetectors.items ∧ d entries n = .ok true :=
  fun s => scan_plain_char hnm h s

theorem scan_plain_union_witness :
    ("manifest.json" ∉ w4entries.map Entry.name) ∧
    scan (Bytes.mk none none (some w4entries)) = .ok {Sdks.ANDROID_DALVIK, Sdks.FLUTTER} ∧
    (∀ s : Sdks, s ∈ ({Sdks.ANDROID_DALVIK, Sdks.FLUTTER} : Finset Sdks) ↔
      ∃ n ∈ w4entries.map Entry.name, ∃ d,
        (s, d) ∈ SdkDetectors.items ∧ d w4entries n = .ok true) :=
  ⟨by decide, by rw [scan.eq_def]; rfl,
   scan_plain_union none none w4entries {Sdks.ANDROID_DALVIK, Sdks.FLUTTER}
     (by decide) (by rw [scan.eq_def]; rfl)⟩

/-- C5 (corrected): the Ionic predicate answers true only on a name matching
the manifest.js path pattern whose entry reads and decodes to text holding
the Ionic token; an undecodable entry yields false without an exception;
but a read failure propagates as an exception instead of yielding false. -/
theorem is_ionic_amended (entries : List Entry) (name : String) :
    (is_ionic entries name = .ok true →
      rmatch (lit "assets/www/manifest.js") name.data = true ∧
      ∃ b content, zipRead entries name = .ok b ∧ b.text = some content ∧
        rsearch (lit "Ionic") content.data = true) ∧
    (∀ b, zipRead entries name = .ok b → b.text = none →
      is_ionic entries name = .ok false) ∧
    (∀ e, rmatch (lit "assets/www/manifest.js") name.data = true →
      zipRead entries name = .error e → is_ionic entries name = .error e) := by
  refine ⟨?_, ?_, ?_⟩
  · intro h
    unfold is_ionic at h
    split at h
    · next hp =>
      refine ⟨hp, ?_⟩
      split at h
      · exact absurd h (by simp)
      · next b heq =>
        split at h
        · exact absurd h (by simp)
        · next content hct =>
          injection h with hr
          exact ⟨b, content, heq, hct, hr⟩
    · exact absurd h (by simp)
  · intro b hz ht
    unfold is_ionic
    split
    · rw [hz]
      dsimp only
      rw [ht]
    · rfl
  · intro e hp hz
    unfold is_ionic
    rw [if_pos hp, hz]

/-- C5 counterexample: on an entry named assets/www/manifest.js whose read
raises, the Ionic predicate raises instead of answering false, and the
exception escapes the whole engine. -/
theorem is_ionic_read_error_counterexample :
    is_ionic corruptIonicEntries "assets/www/manifest.js" = .error ScanError.readError ∧
    scan (Bytes.mk none none (some corruptIonicEntries)) = .error ScanError.readError := by
  constructor
  · decide
  · rw [scan.eq_def]; decide

theorem is_ionic_amended_witness :
    rmatch (lit "assets/www/manifest.js") "assets/www/manifest.js".data = true ∧
    zipRead corruptIonicEntries "assets/www/manifest.js" = .error ScanError.readError ∧
    is_ionic corruptIonicEntries "assets/www/manifest.js" = .error ScanError.readError :=
  ⟨by decide, rfl,
   (is_ionic_amended corruptIonicEntries "assets/www/manifest.js").2.2
     ScanError.readError (by decide) rfl⟩

/-- C6 (confirmed): bytes that do not open as a zip raise the archive-format
error, a readable manifest entry that fails validation raises the distinct
manifest-parse error, and neither error is an ok flag set. -/
theorem scan_typed_errors (t1 : Option String) (m1 : Option XAPKManifest)
    (t2 : Option String) (m2 : Option XAPKManifest) (entries : List Entry) (mbytes : Bytes)
    (h1 : "manifest.json" ∈ entries.map Entry.name)
    (h2 : zipRead entries "manifest.json" = .ok mbytes)
    (h3 : mbytes.asManifest = none) :
    scan (Bytes.mk t1 m1 none) = .error ScanError.badZip ∧
    scan (Bytes.mk t2 m2 (some entries)) = .error ScanError.manifestParse ∧
    ScanError.badZip ≠ ScanError.manifestParse ∧
    (∀ S : Finset Sdks,
      (Except.error ScanError.badZip : Except ScanError (Finset Sdks)) ≠ .ok S) ∧
    (∀ S : Finset Sdks,
      (Except.error ScanError.manifestParse : Except ScanError (Finset Sdks)) ≠ .ok S) := by
  refine ⟨scan_notZip t1 m1, ?_, by decide,
    fun S h => Except.noConfusion h, fun S h => Except.noConfusion h⟩
  rw [scan_manifest_eq _ _ _ _ h1 h2, h3]

theorem scan_typed_errors_witness :
    ("manifest.json" ∈ parseFailEntries.map Entry.name) ∧
    zipRead parseFailEntries "manifest.json" = .ok noBytes ∧
    noBytes.asManifest = none ∧
    scan (Bytes.mk none none none) = .error ScanError.badZip ∧
    scan (Bytes.mk none none (some parseFailEntries)) = .error ScanError.manifestParse :=
  ⟨by decide, rfl, rfl,
   (scan_typed_errors none none none none parseFailEntries noBytes
     (by decide) rfl rfl).1,
   (scan_typed_errors none none none none parseFailEntries noBytes
     (by decide) rfl rfl).2.1⟩

/-- C7 (confirmed): scan is a pure function of the package bytes, so two
invocations on identical bytes return identical results. -/
theorem scan_deterministic (b1 b2 : Bytes) (h : b1 = b2) : scan b1 = scan b2 := by
  rw [h]

theorem scan_deterministic_witness :
    dexArchive = dexArchive ∧ scan dexArchive = scan dexArchive :=
  ⟨rfl, scan_deterministic dexArchive dexArchive rfl⟩

/-- C8 (corrected): appending further entries whose names do not collide
with the existing listing never loses a detected identifier: when both
scans complete, the smaller archive's flag set is contained in the larger
one's. Unconditionally the claim fails: an appended entry that reuses an
existing name shadows it in zipfile's last-entry-wins name resolution, and
a previously detected content-based identifier can disappear. -/
theorem scan_append_superset (t1 : Option String) (m1 : Option XAPKManifest)
    (t2 : Option String) (m2 : Option XAPKManifest)
    (entries more : List Entry) (S S2 : Finset Sdks)
    (hfresh : ∀ n ∈ entries.map Entry.name, n ∉ more.map Entry.name)
    (hnm : "manifest.json" ∉ (entries ++ more).map Entry.name)
    (h1 : scan (Bytes.mk t1 m1 (some entries)) = .ok S)
    (h2 : scan (Bytes.mk t2 m2 (some (entries ++ more))) = .ok S2) :
    S ⊆ S2 := by
  have hnm1 : "manifest.json" ∉ entries.map Entry.name := by
    simp only [List.map_append, List.mem_append] at hnm
    exact fun hh => hnm (Or.inl hh)
  intro s hs
  rw [scan_plain_char hnm1 h1 s] at hs
  rw [scan_plain_char hnm h2 s]
  obtain ⟨n, hn, d, hi, hd⟩ := hs
  refine ⟨n, ?_, d, hi, detector_ok_true_append_fresh hi (hfresh n hn) hd⟩
  simp only [List.map_append, List.mem_append]
  exact Or.inl hn

/-- C8 counterexample: appending a same-named, non-Ionic manifest.js entry
makes both Ionic reads resolve to the appended content (last entry wins),
so the IONIC flag detected before the append disappears even though both
scans complete; the unconditional superset claim is false. -/
theorem scan_append_shadow_counterexample :
    scan (Bytes.mk none none (some c8entries)) = .ok {Sdks.IONIC} ∧
    scan (Bytes.mk none none (some (c8entries ++ c8shadow))) = .ok (∅ : Finset Sdks) ∧
    ¬ ({Sdks.IONIC} : Finset Sdks) ⊆ (∅ : Finset Sdks) := by
  refine ⟨?_, ?_, by decide⟩
  · rw [scan.eq_def]; decide
  · rw [scan.eq_def]; decide

theorem scan_append_superset_witness :
    (∀ n ∈ w8entries.map Entry.name, n ∉ w8more.map Entry.name) ∧
    ("manifest.json" ∉ (w8entries ++ w8more).map Entry.name) ∧
    scan (Bytes.mk none none (some w8entries)) = .ok {Sdks.ANDROID_DALVIK} ∧
    scan (Bytes.mk none none (some (w8entries ++ w8more))) =
      .ok {Sdks.ANDROID_KOTLIN, Sdks.ANDROID_DALVIK} ∧
    ({Sdks.ANDROID_DALVIK} : Finset Sdks) ⊆ {Sdks.ANDROID_KOTLIN, Sdks.ANDROID_DALVIK} :=
  ⟨by decide, by decide, by rw [scan.eq_def]; decide, by rw [scan.eq_def]; rfl,
   scan_append_superset none none none none w8entries w8more
     {Sdks.ANDROID_DALVIK} {Sdks.ANDROID_KOTLIN, Sdks.ANDROID_DALVIK}
     (by decide) (by decide) (by rw [scan.eq_def]; decide) (by rw [scan.eq_def]; rfl)⟩

/-- C9 (corrected): the short-circuiting engine agrees with the variant that
evaluates every (identifier, predicate) pair whenever that variant completes
without an exception; the counterexample shows the two can differ when a
skipped predicate call would have raised. -/
theorem eval_all_refines_scan (t : Option String) (m : Option XAPKManifest)
    (entries : List Entry) (S : Finset Sdks)
    (hnm : "manifest.json" ∉ entries.map Entry.name)
    (h : detectLoopAll entries (scanPairs (entries.map Entry.name)) ∅ = .ok S) :
    scan (Bytes.mk t m (some entries)) = .ok S := by
  obtain ⟨S2, h2⟩ := detectLoop_ok_of_calls (detectLoopAll_ok_calls h) ∅
  rw [scan_plain_eq _ _ _ hnm, h2]
  congr 1
  ext s
  rw [detectLoop_ok_char h2 s, detectLoopAll_ok_char h s]

/-- C9 counterexample: with a readable Ionic hit followed by a corrupt entry
whose name also matches the Ionic pattern, the skipping engine returns the
Ionic singleton while the evaluate-everything variant raises, so the two
variants are not observationally equal on every archive. -/
theorem skip_vs_eval_all_counterexample :
    scan (Bytes.mk none none (some c9entries)) = .ok {Sdks.IONIC} ∧
    detectLoopAll c9entries (scanPairs (c9entries.map Entry.name)) ∅ =
      .error ScanError.readError ∧
    (Except.ok ({Sdks.IONIC} : Finset Sdks) : Except ScanError (Finset Sdks)) ≠
      .error ScanError.readError := by
  refine ⟨?_, by decide, by decide⟩
  rw [scan.eq_def]; decide

theorem eval_all_refines_scan_witness :
    ("manifest.json" ∉ w8entries.map Entry.name) ∧
    detectLoopAll w8entries (scanPairs (w8entries.map Entry.name)) ∅ =
      .ok {Sdks.ANDROID_DALVIK} ∧
    scan (Bytes.mk none none (some w8entries)) = .ok {Sdks.ANDROID_DALVIK} :=
  ⟨by decide, by decide,
   eval_all_refines_scan none none w8entries {Sdks.ANDROID_DALVIK}
     (by decide) (by decide)⟩

/-- C10 (confirmed): an archive whose manifest validates to an empty
split_apks list makes scan raise the empty-reduce error instead of
returning a flag set. -/
theorem scan_empty_split_apks_raises (t : Option String) (m : Option XAPKManifest)
    (entries : List Entry) (mbytes : Bytes) (man : XAPKManifest)
    (h1 : "manifest.json" ∈ entries.map Entry.name)
    (h2 : zipRead entries "manifest.json" = .ok mbytes)
    (h3 : mbytes.asManifest = some man)
    (h4 : man.split_apks = []) :
    scan (Bytes.mk t m (some entries)) = .error ScanError.reduceEmpty := by
  rw [scan_manifest_eq _ _ _ _ h1 h2, h3]
  dsimp only
  rw [h4, scanReduce_nil]

theorem scan_empty_split_apks_raises_witness :
    ("manifest.json" ∈ emptySplitEntries.map Entry.name) ∧
    zipRead emptySplitEntries "manifest.json" = .ok (manifestBytes []) ∧
    (manifestBytes []).asManifest = some (mkManifest []) ∧
    (mkManifest []).split_apks = [] ∧
    scan (Bytes.mk none none (some emptySplitEntries)) = .error ScanError.reduceEmpty :=
  ⟨by decide, rfl, rfl, rfl,
   scan_empty_split_apks_raises none none emptySplitEntries (manifestBytes [])
     (mkManifest []) (by decide) rfl rfl rfl⟩

end sdkscan
